import Mathlib

/-!
Verification of `analyze.py` (baseball-salary analysis script).

The script is embedded shallowly:
* a pandas `DataFrame` becomes a list of indexed rows of optional rationals
  (`none` models a NaN / missing cell);
* the random draw of `numpy.random.choice` becomes an explicit list parameter
  `isi` (the drawn keys, with replacement);
* fallible Python evaluation (KeyError, NameError on an unbound local,
  TypeError on a call with the wrong arity) becomes `Except PyErr`;
* external library numerics that the verified claims do not depend on
  (sklearn fit/score/predict results) become explicit function parameters.
All definitions follow the source of `src/analyze.py`; line numbers in the
doc comments point into that file.
-/

/-- Python runtime errors that the embedded fragments can raise. -/
inductive PyErr where
  | keyError : PyErr
  | nameError : PyErr
  | typeError : PyErr
  deriving DecidableEq, Repr

/-- A cell of a data frame; `none` models a missing value (NaN). -/
abbrev Cell := Option ℚ

/-- A row of a data frame: one optional rational per column. -/
abbrev Row := List Cell

/-- A pandas DataFrame: a fixed column count and rows keyed by an integer
index, kept in index order. -/
structure DataFrame where
  ncols : ℕ
  rows : List (ℕ × Row)
  deriving Repr

namespace DataFrame

/-- The index of the frame (`data.index`). -/
def index (d : DataFrame) : List ℕ := d.rows.map Prod.fst

/-- Look up the row stored at key `k` (first match, as for a unique index). -/
def lookup (d : DataFrame) (k : ℕ) : Option Row :=
  (d.rows.find? (fun p => p.1 == k)).map Prod.snd

end DataFrame

/-- Row selection `data.loc[keys, :]`: one row per requested key, in request
order, duplicates included; a key absent from the index raises `KeyError`. -/
def loc (d : DataFrame) : List ℕ → Except PyErr (List (ℕ × Row))
  | [] => Except.ok []
  | k :: ks =>
      match d.lookup k with
      | none => Except.error PyErr.keyError
      | some r =>
          match loc d ks with
          | Except.error e => Except.error e
          | Except.ok rs => Except.ok ((k, r) :: rs)

/-- Test `frame.isnull().any().any()`: does any cell of the selected rows hold a
missing value? -/
def hasNull (rows : List (ℕ × Row)) : Bool :=
  rows.any (fun p => p.2.any (fun c => c.isNone))

/-- The cells of column `j` over the given rows (short rows read as NaN). -/
def colCells (rows : List (ℕ × Row)) (j : ℕ) : List Cell :=
  rows.map (fun p => p.2.getD j none)

/-- Value of `in_sample.mean().apply(numpy.floor)` for one column: pandas `mean`
skips NaN cells; a column with no observed value has mean NaN (`none`), and
`numpy.floor` of NaN is NaN. -/
def colMeanFloor (rows : List (ℕ × Row)) (j : ℕ) : Cell :=
  let vs := (colCells rows j).filterMap id
  if vs.length = 0 then none else some (⌊vs.sum / (vs.length : ℚ)⌋ : ℤ)

/-- The per-column fill values of `analyze.py` line 122:
`fill_data = in_sample.mean().apply(numpy.floor)`. -/
def fill_data (ncols : ℕ) (rows : List (ℕ × Row)) : List Cell :=
  (List.range ncols).map (colMeanFloor rows)

/-- Fill `row.fillna(f)`: replace each missing cell by the fill value of its
column (a NaN fill value leaves the cell missing, as in pandas). -/
def fillRow (f : List Cell) (r : Row) : Row :=
  r.enum.map (fun p =>
    match p.2 with
    | some v => some v
    | none => f.getD p.1 none)

/-- Fill `frame.fillna(fill_data, inplace=True)` over selected rows. -/
def fillna (f : List Cell) (rows : List (ℕ × Row)) : List (ℕ × Row) :=
  rows.map (fun p => (p.1, fillRow f p.2))

/-- The out-of-sample index of `analyze.py` line 114:
`osi = data.index[~data.index.isin(isi)]`. -/
def osiOf (d : DataFrame) (isi : List ℕ) : List ℕ :=
  d.index.filter (fun k => !(isi.contains k))

/-- Embedding of `create_in_out_samples(data, in_sample_size)`
(`analyze.py` lines 94–129).  The random draw
`isi = numpy.random.choice(data.index, in_sample_size)` is passed in as the
explicit parameter `isi` (its length is the requested in-sample size).  The
four `if` combinations spell out lines 121–127: the fill values are computed
only when the in-sample rows hold a missing value; if the out-of-sample rows
hold a missing value while the in-sample rows do not, the local `fill_data`
was never bound and line 127 raises `NameError`. -/
def create_in_out_samples (data : DataFrame) (isi : List ℕ) :
    Except PyErr (List ℕ × List (ℕ × Row) × List ℕ × List (ℕ × Row)) :=
  match loc data isi with
  | Except.error e => Except.error e
  | Except.ok in_rows =>
      match loc data (osiOf data isi) with
      | Except.error e => Except.error e
      | Except.ok out_rows =>
          if hasNull in_rows then
            if hasNull out_rows then
              Except.ok (isi, fillna (fill_data data.ncols in_rows) in_rows,
                osiOf data isi, fillna (fill_data data.ncols in_rows) out_rows)
            else
              Except.ok (isi, fillna (fill_data data.ncols in_rows) in_rows,
                osiOf data isi, out_rows)
          else
            if hasNull out_rows then
              Except.error PyErr.nameError
            else
              Except.ok (isi, in_rows, osiOf data isi, out_rows)

/-- No cell anywhere in the frame is missing. -/
def noNullDF (d : DataFrame) : Bool :=
  d.rows.all (fun p => p.2.all (fun c => c.isSome))

/-! ## PCA component selection (`pc_regression`, lines 186–190) -/

/-- Running cumulative sums, as `numpy.cumsum`. -/
def cumsum : List ℚ → List ℚ
  | [] => []
  | x :: xs => x :: (cumsum xs).map (fun y => x + y)

/-- Line 187, `prop_var = (s / s.sum()).cumsum()`: the cumulative
explained-variance proportions of the singular values `s`. -/
def prop_var (s : List ℚ) : List ℚ :=
  cumsum (s.map (fun x => x / s.sum))

/-- Behavior of `numpy.argmax` on a vector of naturals: the index of the first
occurrence of the maximum value (a boolean vector is viewed as 0/1, so an
all-false vector yields index 0). -/
def np_argmax (l : List ℕ) : ℕ :=
  l.findIdx (fun x => x == l.foldr max 0)

/-- The retained component count of `pc_regression` line 190:
`n = (prop_var > var_target).argmax() + 1`, the comparison being elementwise
and strict. -/
def num_components (pv : List ℚ) (var_target : ℚ) : ℕ :=
  np_argmax (pv.map (fun p => if var_target < p then 1 else 0)) + 1

/-! ## Error metric (`mv_regression` lines 158–159, also `pc_regression`
lines 198–199, `regression_tree` lines 248–249, `regression_forest`
lines 273–274) -/

/-- Lines 158-159, `eps = (pred - ys[osi]).apply(numpy.abs); mse = eps.sum()/(eps.shape[0] - 2)`:
the out-of-sample error metric, as a function of the residual vector
(the subtraction `pred - ys[osi]` elementwise). -/
def mse_metric (resid : List ℚ) : ℚ :=
  (resid.map (fun e => |e|)).sum / ((resid.length : ℚ) - 2)

/-! ## Comparison driver (`compare_functions`, lines 303–340) -/

/-- The dictionary of per-evaluator error lists that `compare_functions`
accumulates (line 320–323). -/
structure CompareAcc where
  mv : List ℚ
  pc : List ℚ
  tr : List ℚ
  fo : List ℚ
  deriving Repr

/-- One loop iteration of `compare_functions` (lines 325–338): append the
four error values of this simulation to the four lists.  `sim i` abstracts
the quadruple of evaluator results of iteration `i` (each evaluator draws
its own fresh random sample inside; the iteration index stands for that
fresh randomness, and the numeric results come from the library fits). -/
def compare_step (sim : ℕ → ℚ × ℚ × ℚ × ℚ) (d : CompareAcc) (i : ℕ) : CompareAcc :=
  let r := sim i
  { mv := d.mv ++ [r.1]
    pc := d.pc ++ [r.2.1]
    tr := d.tr ++ [r.2.2.1]
    fo := d.fo ++ [r.2.2.2] }

/-- Embedding of `compare_functions(xs, ys, num_sims, in_sample_size)`
(lines 303–340): run the loop for `num_sims` iterations starting from the
dictionary of four empty lists, then build the result frame
`pandas.DataFrame(d)` as the list of its four named columns. -/
def compare_functions (sim : ℕ → ℚ × ℚ × ℚ × ℚ) (num_sims : ℕ) :
    List (String × List ℚ) :=
  let d := (List.range num_sims).foldl (compare_step sim) ⟨[], [], [], []⟩
  [("mv_regression", d.mv), ("pc_regression", d.pc),
   ("regression_tree", d.tr), ("regression_forest", d.fo)]

/-! ## Module-level state (`COLS`, lines 23–25, and the aliasing in
`year_based_significance_regression`, lines 43–44) -/

/-- The global column list `COLS` of lines 23–25. -/
def COLS : List String :=
  ["G_batting", "AB", "R", "H", "X2B", "X3B", "HR", "RBI",
   "SB", "CS", "BB", "SO", "IBB", "HBP", "SH", "SF", "GIDP", "teamID",
   "salary", "yearID"]

/-- The module-level mutable state of `analyze.py`: the one global list. -/
structure PyModuleState where
  COLS : List String
  deriving Repr

/-- The effect on the module state of lines 43–44 of
`year_based_significance_regression`:
`cols = COLS` binds the local name to the same list object as the global,
and `cols.append('age')` mutates that object in place, so after the call
the global `COLS` has grown by the element `"age"`.  No other statement of
the function touches module-level state. -/
def year_based_cols_effect (s : PyModuleState) : PyModuleState :=
  { COLS := s.COLS ++ ["age"] }

/-! ## `sklearn_mv_regression` (lines 203–225) -/

/-- A positional argument of a Python call in the embedded fragment: either
a data frame or a series of numbers. -/
inductive PyArg where
  | frame (rows : List (ℕ × Row)) : PyArg
  | series (vals : List ℚ) : PyArg

/-- A value stored in the dictionary `d` of `sklearn_mv_regression`. -/
inductive PyVal where
  | listVal (l : List ℚ) : PyVal
  | numVal (q : ℚ) : PyVal
  deriving Repr

/-- Python dictionary assignment `d[k] = v` on an association list. -/
def dictSet (d : List (String × PyVal)) (k : String) (v : PyVal) :
    List (String × PyVal) :=
  if (d.lookup k).isSome then
    d.map (fun p => if p.1 = k then (k, v) else p)
  else
    d ++ [(k, v)]

/-- A call to `clf.predict` of a fitted sklearn model: the method accepts
exactly one positional data argument; any other arity raises `TypeError`.
`predictImpl` abstracts the numeric prediction the library would return. -/
def sklearn_predict_call (predictImpl : PyArg → List ℚ) (args : List PyArg) :
    Except PyErr (List ℚ) :=
  match args with
  | [x] => Except.ok (predictImpl x)
  | _ => Except.error PyErr.typeError

/-- Embedding of `sklearn_mv_regression(xs, ys, in_sample_size)`
(lines 203–225).  `scoreImpl` and `predictImpl` abstract the library's
numeric results (`clf.score`, `clf.predict`); `ys` is the target series and
`isi` the random draw.  Line by line: build the dictionary `d` (line 218),
split the sample (line 220), fit and store the in-sample score (lines
221–223), call `pred = clf.predict(out_sample, ys[osi])` with TWO positional
arguments (line 224), then evaluate the bare expression `d['']` (line 225).
An `ok` result stands for the body running to completion; the theorems show
it is never produced. -/
def sklearn_mv_regression
    (scoreImpl : List (ℕ × Row) → List ℚ → ℚ)
    (predictImpl : PyArg → List ℚ)
    (xs : DataFrame) (ys : ℕ → ℚ) (isi : List ℕ) :
    Except PyErr PyVal :=
  let d : List (String × PyVal) :=
    [("MAE", PyVal.listVal []), ("in-sample-r2", PyVal.listVal []),
     ("out-sample-r2", PyVal.listVal [])]
  match create_in_out_samples xs isi with
  | Except.error e => Except.error e
  | Except.ok (isi2, in_sample, osi, out_sample) =>
      let d := dictSet d "in-sample-r2"
        (PyVal.numVal (scoreImpl in_sample (isi2.map ys)))
      match sklearn_predict_call predictImpl
          [PyArg.frame out_sample, PyArg.series (osi.map ys)] with
      | Except.error e => Except.error e
      | Except.ok _pred =>
          match d.lookup "" with
          | none => Except.error PyErr.keyError
          | some v => Except.ok v

/-! ## Helper lemmas about the sampler -/

lemma mem_osiOf_iff (d : DataFrame) (isi : List ℕ) (k : ℕ) :
    k ∈ osiOf d isi ↔ k ∈ d.index ∧ k ∉ isi := by
  simp [osiOf, List.mem_filter]

lemma loc_congr (d1 d2 : DataFrame) (ks : List ℕ)
    (h : ∀ k ∈ ks, d1.lookup k = d2.lookup k) : loc d1 ks = loc d2 ks := by
  induction ks with
  | nil => rfl
  | cons k ks ih =>
      simp only [loc]
      rw [h k (List.mem_cons_self k ks),
        ih (fun a ha => h a (List.mem_cons_of_mem _ ha))]

lemma loc_ok_lookup (d : DataFrame) (ks : List ℕ) (rs : List (ℕ × Row))
    (h : loc d ks = Except.ok rs) : ∀ p ∈ rs, d.lookup p.1 = some p.2 := by
  induction ks generalizing rs with
  | nil =>
      simp only [loc, Except.ok.injEq] at h
      subst h
      intro p hp
      cases hp
  | cons k ks ih =>
      simp only [loc] at h
      cases hk : d.lookup k with
      | none => rw [hk] at h; exact absurd h (by simp)
      | some r =>
          rw [hk] at h
          cases hrec : loc d ks with
          | error e => rw [hrec] at h; exact absurd h (by simp)
          | ok rs2 =>
              rw [hrec] at h
              simp only [Except.ok.injEq] at h
              subst h
              intro p hp
              rcases List.mem_cons.mp hp with hp | hp
              · subst hp; exact hk
              · exact ih rs2 hrec p hp

lemma lookup_all_some (d : DataFrame) (k : ℕ) (r : Row)
    (hd : noNullDF d = true) (h : d.lookup k = some r) :
    r.all (fun c => c.isSome) = true := by
  unfold DataFrame.lookup at h
  cases hf : d.rows.find? (fun p => p.1 == k) with
  | none => rw [hf] at h; exact absurd h (by simp)
  | some p =>
      rw [hf] at h
      simp only [Option.map_some', Option.some.injEq] at h
      have hp := List.mem_of_find?_eq_some hf
      unfold noNullDF at hd
      rw [List.all_eq_true] at hd
      have := hd p hp
      rw [← h]
      exact this

lemma hasNull_eq_false (rs : List (ℕ × Row))
    (h : ∀ p ∈ rs, p.2.all (fun c => c.isSome) = true) :
    hasNull rs = false := by
  unfold hasNull
  rw [List.any_eq_false]
  intro p hp
  have hall := h p hp
  rw [List.all_eq_true] at hall
  rw [Bool.not_eq_true, List.any_eq_false]
  intro c hc
  have := hall c hc
  cases c with
  | none => simp at this
  | some v => simp

/-- Inversion principle for a successful run of `create_in_out_samples`:
both `loc` selections succeeded, the returned key lists are the draw and
its complement, and the returned tables are the selected rows, filled
exactly as lines 121–127 dictate. -/
lemma create_in_out_samples_ok_inv
    (data : DataFrame) (isi : List ℕ)
    (res : List ℕ × List (ℕ × Row) × List ℕ × List (ℕ × Row))
    (h : create_in_out_samples data isi = Except.ok res) :
    ∃ in_rows out_rows,
      loc data isi = Except.ok in_rows ∧
      loc data (osiOf data isi) = Except.ok out_rows ∧
      res.1 = isi ∧ res.2.2.1 = osiOf data isi ∧
      ((hasNull in_rows = true ∧
          res.2.1 = fillna (fill_data data.ncols in_rows) in_rows ∧
          res.2.2.2 = (if hasNull out_rows then
            fillna (fill_data data.ncols in_rows) out_rows else out_rows)) ∨
        (hasNull in_rows = false ∧ hasNull out_rows = false ∧
          res.2.1 = in_rows ∧ res.2.2.2 = out_rows)) := by
  unfold create_in_out_samples at h
  cases h1 : loc data isi with
  | error e => rw [h1] at h; simp only [] at h; cases h
  | ok in_rows =>
      rw [h1] at h
      simp only [] at h
      cases h2 : loc data (osiOf data isi) with
      | error e => rw [h2] at h; simp only [] at h; cases h
      | ok out_rows =>
          rw [h2] at h
          simp only [] at h
          refine ⟨in_rows, out_rows, rfl, rfl, ?_⟩
          cases h3 : hasNull in_rows with
          | true =>
              cases h4 : hasNull out_rows with
              | true =>
                  simp only [h3, h4, if_true, Except.ok.injEq] at h
                  subst h
                  exact ⟨rfl, rfl, Or.inl ⟨rfl, rfl, by simp [h4]⟩⟩
              | false =>
                  simp only [h3, h4, Bool.false_eq_true, if_true, if_false, Except.ok.injEq] at h
                  subst h
                  exact ⟨rfl, rfl, Or.inl ⟨rfl, rfl, by simp [h4]⟩⟩
          | false =>
              cases h4 : hasNull out_rows with
              | true => simp [h3, h4] at h
              | false =>
                  simp only [h3, h4, Bool.false_eq_true, if_false, Except.ok.injEq] at h
                  subst h
                  exact ⟨rfl, rfl, Or.inr ⟨rfl, rfl, rfl, rfl⟩⟩

/-! ## Claim theorems for the Sampler/Imputer -/

/-- C1: for every input table and every positive in-sample draw, whenever
`create_in_out_samples` returns, the in-sample key list and the
out-of-sample key list it returns are disjoint: no key drawn into the
in-sample index appears in the out-of-sample index. -/
theorem create_in_out_samples_disjoint
    (data : DataFrame) (isi : List ℕ)
    (res : List ℕ × List (ℕ × Row) × List ℕ × List (ℕ × Row))
    (_hpos : 0 < isi.length)
    (h : create_in_out_samples data isi = Except.ok res) :
    ∀ k ∈ res.1, k ∉ res.2.2.1 := by
  obtain ⟨in_rows, out_rows, _, _, hkeys, hosi, _⟩ :=
    create_in_out_samples_ok_inv data isi res h
  rw [hkeys, hosi]
  intro k hk hmem
  exact ((mem_osiOf_iff data isi k).mp hmem).2 hk

/-- C1 witness: a concrete two-row table with the draw `[0]`. -/
theorem create_in_out_samples_disjoint_witness :
    (0 : ℕ) ∉ ([1] : List ℕ) :=
  create_in_out_samples_disjoint
    ⟨1, [(0, [some 1]), (1, [some 2])]⟩ [0]
    ([0], [(0, [some 1])], [1], [(1, [some 2])])
    (by decide) (by rfl) 0 (by decide)

/-- C2: for every pair of input tables that agree on all rows whose keys
are in the in-sample draw (and share the column count), the imputation fill
values of line 122 computed inside `create_in_out_samples` are identical:
mutating rows that are out-of-sample-only cannot change the per-column fill
values, for the same random draw. -/
theorem fill_values_from_in_sample_only
    (d1 d2 : DataFrame) (isi : List ℕ) (rows1 rows2 : List (ℕ × Row))
    (hc : d1.ncols = d2.ncols)
    (hagree : ∀ k ∈ isi, d1.lookup k = d2.lookup k)
    (h1 : loc d1 isi = Except.ok rows1)
    (h2 : loc d2 isi = Except.ok rows2) :
    fill_data d1.ncols rows1 = fill_data d2.ncols rows2 := by
  have hloc : loc d1 isi = loc d2 isi := loc_congr d1 d2 isi hagree
  rw [h1, h2] at hloc
  simp only [Except.ok.injEq] at hloc
  rw [hc, hloc]

/-- C2 witness: two one-column tables differing only in the row with key 1,
which is not drawn; the fill values agree. -/
theorem fill_values_from_in_sample_only_witness :
    fill_data 1 [(0, [(none : Cell)]), (0, [(none : Cell)])] =
      fill_data 1 [(0, [(none : Cell)]), (0, [(none : Cell)])] :=
  fill_values_from_in_sample_only
    ⟨1, [(0, [none]), (1, [some 7])]⟩
    ⟨1, [(0, [none]), (1, [some 99])]⟩
    [0, 0]
    [(0, [none]), (0, [none])] [(0, [none]), (0, [none])]
    rfl
    (by intro k hk; rcases List.mem_cons.mp hk with rfl | hk
        · rfl
        · rcases List.mem_cons.mp hk with rfl | hk
          · rfl
          · cases hk)
    (by rfl) (by rfl)

/-- C3: whenever the in-sample selection contains no missing value but the
out-of-sample rows do contain one, `create_in_out_samples` fails: the local
`fill_data` of line 122 was never bound, and the fill of line 127 raises
`NameError`. -/
theorem create_in_out_samples_name_error
    (data : DataFrame) (isi : List ℕ) (in_rows out_rows : List (ℕ × Row))
    (h1 : loc data isi = Except.ok in_rows)
    (h2 : loc data (osiOf data isi) = Except.ok out_rows)
    (hin : hasNull in_rows = false)
    (hout : hasNull out_rows = true) :
    create_in_out_samples data isi = Except.error PyErr.nameError := by
  unfold create_in_out_samples
  rw [h1]
  simp only []
  rw [h2]
  simp only [hin, hout, Bool.false_eq_true, if_false, if_true]

/-- C3 witness: a table whose drawn row is complete while the remaining
rows contain a missing cell. -/
theorem create_in_out_samples_name_error_witness :
    create_in_out_samples
      ⟨2, [(0, [some 1, some 2]), (1, [some 3, none]), (2, [none, some 5])]⟩
      [0, 0] = Except.error PyErr.nameError :=
  create_in_out_samples_name_error
    ⟨2, [(0, [some 1, some 2]), (1, [some 3, none]), (2, [none, some 5])]⟩
    [0, 0]
    [(0, [some 1, some 2]), (0, [some 1, some 2])]
    [(1, [some 3, none]), (2, [none, some 5])]
    (by rfl) (by rfl) (by rfl) (by rfl)

/-- C4: for an input table with no missing value anywhere, a successful run
of `create_in_out_samples` performs no imputation: the returned in-sample
table is exactly the list of rows selected from the input by the draw, the
returned out-of-sample table is exactly the list of rows selected by the
complement index, and every returned row equals the input row stored under
its key. -/
theorem create_in_out_samples_no_imputation
    (data : DataFrame) (isi : List ℕ)
    (res : List ℕ × List (ℕ × Row) × List ℕ × List (ℕ × Row))
    (hnn : noNullDF data = true)
    (h : create_in_out_samples data isi = Except.ok res) :
    loc data isi = Except.ok res.2.1 ∧
    loc data res.2.2.1 = Except.ok res.2.2.2 ∧
    (∀ p ∈ res.2.1, data.lookup p.1 = some p.2) ∧
    (∀ p ∈ res.2.2.2, data.lookup p.1 = some p.2) := by
  obtain ⟨in_rows, out_rows, h1, h2, hkeys, hosi, hcase⟩ :=
    create_in_out_samples_ok_inv data isi res h
  have hinN : hasNull in_rows = false :=
    hasNull_eq_false in_rows (fun p hp =>
      lookup_all_some data p.1 p.2 hnn (loc_ok_lookup data isi in_rows h1 p hp))
  have houtN : hasNull out_rows = false :=
    hasNull_eq_false out_rows (fun p hp =>
      lookup_all_some data p.1 p.2 hnn
        (loc_ok_lookup data (osiOf data isi) out_rows h2 p hp))
  rcases hcase with ⟨habs, _⟩ | ⟨_, _, hin, hout⟩
  · rw [hinN] at habs; cases habs
  · rw [hosi, hin, hout]
    exact ⟨h1, h2,
      loc_ok_lookup data isi in_rows h1,
      loc_ok_lookup data (osiOf data isi) out_rows h2⟩

/-- C4 witness: a complete two-row table with the draw `[1, 1]`; the
returned tables are the untouched copied rows. -/
theorem create_in_out_samples_no_imputation_witness :
    loc ⟨1, [(0, [some 1]), (1, [some 2])]⟩ [1, 1] =
      Except.ok [(1, [some 2]), (1, [some 2])] ∧
    loc ⟨1, [(0, [some 1]), (1, [some 2])]⟩ [0] = Except.ok [(0, [some 1])] ∧
    (∀ p ∈ [((1 : ℕ), [(some 2 : Cell)]), (1, [some 2])],
      DataFrame.lookup ⟨1, [(0, [some 1]), (1, [some 2])]⟩ p.1 = some p.2) ∧
    (∀ p ∈ [((0 : ℕ), [(some 1 : Cell)])],
      DataFrame.lookup ⟨1, [(0, [some 1]), (1, [some 2])]⟩ p.1 = some p.2) :=
  create_in_out_samples_no_imputation
    ⟨1, [(0, [some 1]), (1, [some 2])]⟩ [1, 1]
    ([1, 1], [(1, [some 2]), (1, [some 2])], [0], [(0, [some 1])])
    (by rfl) (by rfl)

/-! ## Helper lemmas for the PCA component selection -/

lemma le_foldr_max (m : List ℕ) (x : ℕ) (hx : x ∈ m) : x ≤ m.foldr max 0 := by
  induction m with
  | nil => cases hx
  | cons y ys ih =>
      rcases List.mem_cons.mp hx with rfl | hx
      · exact Nat.le_max_left _ _
      · exact Nat.le_trans (ih hx) (Nat.le_max_right _ _)

lemma foldr_max_le (m : List ℕ) (b : ℕ) (h : ∀ x ∈ m, x ≤ b) :
    m.foldr max 0 ≤ b := by
  induction m with
  | nil => exact Nat.zero_le b
  | cons y ys ih =>
      simp only [List.foldr_cons]
      exact Nat.max_le.mpr ⟨h y (List.mem_cons_self y ys),
        ih (fun x hx => h x (List.mem_cons_of_mem _ hx))⟩

lemma getD_mem_of_lt (m : List ℕ) (i : ℕ) (hi : i < m.length) :
    m.getD i 0 ∈ m := by
  induction m generalizing i with
  | nil => cases hi
  | cons y ys ih =>
      cases i with
      | zero => exact List.mem_cons_self y ys
      | succ j =>
          exact List.mem_cons_of_mem _ (ih j (Nat.lt_of_succ_lt_succ hi))

lemma getD_mem_rat (m : List ℚ) (i : ℕ) (hi : i < m.length) :
    m.getD i 0 ∈ m := by
  induction m generalizing i with
  | nil => cases hi
  | cons y ys ih =>
      cases i with
      | zero => exact List.mem_cons_self y ys
      | succ j =>
          exact List.mem_cons_of_mem _ (ih j (Nat.lt_of_succ_lt_succ hi))

lemma np_argmax_all_zero (m : List ℕ) (h : ∀ x ∈ m, x = 0) :
    np_argmax m = 0 := by
  unfold np_argmax
  cases m with
  | nil => rfl
  | cons y ys =>
      have hy : y = 0 := h y (List.mem_cons_self y ys)
      have hys : ys.foldr max 0 = 0 := by
        apply Nat.le_antisymm
        · exact foldr_max_le _ 0
            (fun x hx => Nat.le_of_eq (h x (List.mem_cons_of_mem _ hx)))
        · exact Nat.zero_le _
      rw [List.findIdx_cons]
      simp [hy, hys]

lemma np_argmax_first_one (m : List ℕ) (i : ℕ) (hi : i < m.length)
    (h1 : m.getD i 0 = 1) (h0 : ∀ j < i, m.getD j 0 = 0)
    (hle : ∀ x ∈ m, x ≤ 1) : np_argmax m = i := by
  have hmax : m.foldr max 0 = 1 := by
    apply Nat.le_antisymm
    · exact foldr_max_le m 1 hle
    · have := le_foldr_max m (m.getD i 0) (getD_mem_of_lt m i hi)
      rwa [h1] at this
  unfold np_argmax
  rw [hmax]
  induction m generalizing i with
  | nil => cases hi
  | cons y ys ih =>
      rw [List.findIdx_cons]
      cases i with
      | zero =>
          have : y = 1 := h1
          simp [this]
      | succ j =>
          have hy : y = 0 := h0 0 (Nat.succ_pos j)
          have hys : ys.foldr max 0 = 1 := by
            apply Nat.le_antisymm
            · exact foldr_max_le ys 1
                (fun x hx => hle x (List.mem_cons_of_mem _ hx))
            · have hmem : ys.getD j 0 ∈ ys :=
                getD_mem_of_lt ys j (Nat.lt_of_succ_lt_succ hi)
              have := le_foldr_max ys (ys.getD j 0) hmem
              have h1j : ys.getD j 0 = 1 := h1
              rwa [h1j] at this
          have hrec := ih j (Nat.lt_of_succ_lt_succ hi) h1
            (fun j2 hj2 => h0 (j2 + 1) (Nat.succ_lt_succ hj2))
            (fun x hx => hle x (List.mem_cons_of_mem _ hx)) hys
          simp [hy, hrec]

lemma num_components_all_le (pv : List ℚ) (t : ℚ)
    (h : ∀ p ∈ pv, p ≤ t) : num_components pv t = 1 := by
  unfold num_components
  rw [np_argmax_all_zero]
  intro x hx
  rcases List.mem_map.mp hx with ⟨p, hp, hpx⟩
  have : ¬ t < p := not_lt.mpr (h p hp)
  rw [← hpx, if_neg this]

lemma num_components_first_gt (pv : List ℚ) (t : ℚ) (i : ℕ)
    (hi : i < pv.length) (hgt : t < pv.getD i 0)
    (hfirst : ∀ j < i, pv.getD j 0 ≤ t) :
    num_components pv t = i + 1 := by
  unfold num_components
  have hlen : i < (pv.map (fun p => if t < p then (1 : ℕ) else 0)).length := by
    rwa [List.length_map]
  congr 1
  apply np_argmax_first_one _ i hlen
  · rw [List.getD_eq_getElem _ _ hlen, List.getElem_map,
      ← List.getD_eq_getElem pv 0 hi, if_pos hgt]
  · intro j hj
    have hji : j < pv.length := Nat.lt_trans hj hi
    have hjlen : j < (pv.map (fun p => if t < p then (1 : ℕ) else 0)).length := by
      rwa [List.length_map]
    rw [List.getD_eq_getElem _ _ hjlen, List.getElem_map,
      ← List.getD_eq_getElem pv 0 hji, if_neg (not_lt.mpr (hfirst j hj))]
  · intro x hx
    rcases List.mem_map.mp hx with ⟨p, _, hpx⟩
    rw [← hpx]
    split
    · exact Nat.le_refl 1
    · exact Nat.zero_le 1

lemma exists_first_exceed (pv : List ℚ) (t : ℚ) (h : ∃ p ∈ pv, t < p) :
    ∃ i, i < pv.length ∧ t < pv.getD i 0 ∧ ∀ j < i, pv.getD j 0 ≤ t := by
  induction pv with
  | nil => rcases h with ⟨p, hp, _⟩; cases hp
  | cons q qs ih =>
      by_cases hq : t < q
      · exact ⟨0, Nat.succ_pos _, hq, fun j hj => absurd hj (Nat.not_lt_zero j)⟩
      · have hqs : ∃ p ∈ qs, t < p := by
          rcases h with ⟨p, hp, hpt⟩
          rcases List.mem_cons.mp hp with rfl | hp
          · exact absurd hpt hq
          · exact ⟨p, hp, hpt⟩
        rcases ih hqs with ⟨i, hi, hgt, hfirst⟩
        refine ⟨i + 1, Nat.succ_lt_succ hi, hgt, ?_⟩
        intro j hj
        cases j with
        | zero => exact le_of_not_lt hq
        | succ j2 => exact hfirst j2 (Nat.lt_of_succ_lt_succ hj)

/-! ## Claim theorems for the PCA component selection -/

/-- C5: the retained component count `n` of `pc_regression` equals one plus
the index of the first position where the cumulative explained-variance
proportion strictly exceeds `var_target`; when no cumulative value exceeds
the threshold, `n` equals 1, because the argmax of an all-false vector
returns index 0. -/
theorem num_components_spec (pv : List ℚ) (t : ℚ) :
    ((∀ p ∈ pv, p ≤ t) ∧ num_components pv t = 1) ∨
    (∃ i, i < pv.length ∧ t < pv.getD i 0 ∧ (∀ j < i, pv.getD j 0 ≤ t) ∧
      num_components pv t = i + 1) := by
  by_cases h : ∃ p ∈ pv, t < p
  · rcases exists_first_exceed pv t h with ⟨i, hi, hgt, hfirst⟩
    exact Or.inr ⟨i, hi, hgt, hfirst,
      num_components_first_gt pv t i hi hgt hfirst⟩
  · push_neg at h
    exact Or.inl ⟨h, num_components_all_le pv t h⟩

/-- C5 witness: the selection evaluated on the cumulative variance sequence
of two equal singular values at target 3/4. -/
theorem num_components_spec_witness :
    ((∀ p ∈ prop_var [1, 1], p ≤ (3 / 4 : ℚ)) ∧
        num_components (prop_var [1, 1]) (3 / 4) = 1) ∨
    (∃ i, i < (prop_var [1, 1]).length ∧
      (3 / 4 : ℚ) < (prop_var [1, 1]).getD i 0 ∧
      (∀ j < i, (prop_var [1, 1]).getD j 0 ≤ (3 / 4 : ℚ)) ∧
      num_components (prop_var [1, 1]) (3 / 4) = i + 1) :=
  num_components_spec (prop_var [1, 1]) (3 / 4)

/-- C6 counterexample: on the cumulative explained-variance sequence
`prop_var [1, 1] = [1/2, 1]`, the targets `t1 = 1` and `t2 = 1/2` both lie
in `[0, 1]` and satisfy `t2 ≤ t1`, yet the count selected for the smaller
target is 2 while the count selected for the larger target is 1 (its
all-false comparison vector makes argmax default to index 0), so the count
is not monotone over all of `[0, 1]`. -/
theorem num_components_not_monotone :
    (0 : ℚ) ≤ 1 ∧ (1 : ℚ) ≤ 1 ∧ (0 : ℚ) ≤ 1 / 2 ∧ (1 / 2 : ℚ) ≤ 1 ∧
    (1 / 2 : ℚ) ≤ 1 ∧
    ¬(num_components (prop_var [1, 1]) (1 / 2) ≤
        num_components (prop_var [1, 1]) 1) := by
  have hpv : prop_var [1, 1] = [1 / 2, 1] := by
    norm_num [prop_var, cumsum]
  have hlow : num_components [(1 / 2 : ℚ), 1] (1 / 2) = 2 :=
    num_components_first_gt [1 / 2, 1] (1 / 2) 1 (by norm_num)
      (by norm_num)
      (by intro j hj
          interval_cases j
          norm_num)
  have hhigh : num_components [(1 / 2 : ℚ), 1] 1 = 1 :=
    num_components_all_le [1 / 2, 1] 1
      (by intro p hp
          rcases List.mem_cons.mp hp with rfl | hp
          · norm_num
          · rcases List.mem_cons.mp hp with rfl | hp
            · exact le_refl 1
            · cases hp)
  refine ⟨by norm_num, by norm_num, by norm_num, by norm_num, by norm_num, ?_⟩
  rw [hpv, hlow, hhigh]
  omega

/-- C6 amended: as long as some cumulative value strictly exceeds the
larger target `t1`, the selected component count is monotone: lowering the
target to `t2 ≤ t1` can only keep or decrease the count.  (The original
claim over all targets in `[0, 1]` fails exactly when no cumulative value
exceeds `t1`, where the all-false argmax defaults the count to 1.) -/
theorem num_components_monotone (pv : List ℚ) (t1 t2 : ℚ)
    (h12 : t2 ≤ t1) (hex : ∃ p ∈ pv, t1 < p) :
    num_components pv t2 ≤ num_components pv t1 := by
  rcases exists_first_exceed pv t1 hex with ⟨i1, hi1, hgt1, hfirst1⟩
  have hex2 : ∃ p ∈ pv, t2 < p :=
    ⟨pv.getD i1 0, getD_mem_rat pv i1 hi1, lt_of_le_of_lt h12 hgt1⟩
  rcases exists_first_exceed pv t2 hex2 with ⟨i2, hi2, hgt2, hfirst2⟩
  have hle : i2 ≤ i1 := by
    by_contra hcon
    push_neg at hcon
    exact absurd hgt1 (not_lt.mpr (le_trans (hfirst2 i1 hcon) h12))
  rw [num_components_first_gt pv t2 i2 hi2 hgt2 hfirst2,
    num_components_first_gt pv t1 i1 hi1 hgt1 hfirst1]
  exact Nat.succ_le_succ hle

/-- C6 amended witness: targets 3/4 and 1/2 on `prop_var [1, 1]`, where the
larger target is exceeded by the last cumulative value. -/
theorem num_components_monotone_witness :
    num_components [(1 / 2 : ℚ), 1] (1 / 2) ≤
      num_components [(1 / 2 : ℚ), 1] (3 / 4) :=
  num_components_monotone [1 / 2, 1] (3 / 4) (1 / 2)
    (by norm_num) ⟨1, by simp, by norm_num⟩

/-! ## Claim theorems for the error metric -/

/-- C7 counterexample: on a residual vector of length 1 the metric divides
by `1 - 2 < 0` and is negative, so it is not non-negative for every
out-of-sample count. -/
theorem mse_metric_negative_counterexample : mse_metric [1] < 0 := by
  norm_num [mse_metric]

/-- C7 amended: the error metric is non-negative whenever the out-of-sample
residual count is at least 3 (so that the degrees-of-freedom denominator is
positive); for counts below 3 the division by `count - 2` makes the source
metric degenerate, as the specification itself notes. -/
theorem mse_metric_nonneg (resid : List ℚ) (h : 3 ≤ resid.length) :
    0 ≤ mse_metric resid := by
  unfold mse_metric
  apply div_nonneg
  · apply List.sum_nonneg
    intro x hx
    rcases List.mem_map.mp hx with ⟨e, _, he⟩
    rw [← he]
    exact abs_nonneg e
  · have h3 : (3 : ℚ) ≤ (resid.length : ℚ) := by exact_mod_cast h
    linarith

/-- C7 amended witness: three unit residuals. -/
theorem mse_metric_nonneg_witness :
    3 ≤ ([1, 1, 1] : List ℚ).length ∧ 0 ≤ mse_metric [1, 1, 1] :=
  ⟨by decide, mse_metric_nonneg [1, 1, 1] (by decide)⟩

/-! ## Claim theorem for the comparison driver -/

lemma compare_fold_lengths (sim : ℕ → ℚ × ℚ × ℚ × ℚ) (l : List ℕ)
    (d : CompareAcc) :
    (l.foldl (compare_step sim) d).mv.length = d.mv.length + l.length ∧
    (l.foldl (compare_step sim) d).pc.length = d.pc.length + l.length ∧
    (l.foldl (compare_step sim) d).tr.length = d.tr.length + l.length ∧
    (l.foldl (compare_step sim) d).fo.length = d.fo.length + l.length := by
  induction l generalizing d with
  | nil => simp
  | cons i l ih =>
      rcases ih (compare_step sim d i) with ⟨h1, h2, h3, h4⟩
      simp only [List.foldl_cons, List.length_cons]
      simp only [compare_step, List.length_append, List.length_singleton]
        at h1 h2 h3 h4 ⊢
      refine ⟨?_, ?_, ?_, ?_⟩ <;> omega

/-- C8: `compare_functions` run for `num_sims` simulations returns a table
with exactly four columns, named after the four evaluators
`mv_regression`, `pc_regression`, `regression_tree` and
`regression_forest`, each holding exactly `num_sims` entries (so one row
per simulation; with `num_sims = 1`, one row and four columns). -/
theorem compare_functions_shape (sim : ℕ → ℚ × ℚ × ℚ × ℚ) (num_sims : ℕ) :
    (compare_functions sim num_sims).length = 4 ∧
    (compare_functions sim num_sims).map Prod.fst =
      ["mv_regression", "pc_regression", "regression_tree",
        "regression_forest"] ∧
    (compare_functions sim num_sims).all
      (fun c => c.2.length == num_sims) = true := by
  refine ⟨by rfl, by rfl, ?_⟩
  have hl := compare_fold_lengths sim (List.range num_sims) ⟨[], [], [], []⟩
  simp only [List.length_range, List.length_nil, Nat.zero_add] at hl
  rcases hl with ⟨h1, h2, h3, h4⟩
  unfold compare_functions
  simp [h1, h2, h3, h4]

/-- C8 witness: one simulation with a constant evaluator quadruple gives
one row and the four named columns. -/
theorem compare_functions_shape_witness :
    (compare_functions (fun _ => ((0 : ℚ), (0 : ℚ), (0 : ℚ), (0 : ℚ))) 1).length
        = 4 ∧
    (compare_functions (fun _ => ((0 : ℚ), (0 : ℚ), (0 : ℚ), (0 : ℚ))) 1).map
        Prod.fst =
      ["mv_regression", "pc_regression", "regression_tree",
        "regression_forest"] ∧
    (compare_functions (fun _ => ((0 : ℚ), (0 : ℚ), (0 : ℚ), (0 : ℚ))) 1).all
      (fun c => c.2.length == 1) = true :=
  compare_functions_shape (fun _ => ((0 : ℚ), (0 : ℚ), (0 : ℚ), (0 : ℚ))) 1

/-! ## Claim theorem for module-level state -/

/-- C9: contrary to the claim that no component maintains state across
invocations, a call to `year_based_significance_regression` mutates the
module-level column list: `cols = COLS` aliases the global list object and
`cols.append('age')` (lines 43–44) mutates it in place, so after the call
the global `COLS` equals the old list with `"age"` appended, and in
particular is not the same list as before. -/
theorem year_based_mutates_COLS :
    (year_based_cols_effect ⟨COLS⟩).COLS = COLS ++ ["age"] ∧
    (year_based_cols_effect ⟨COLS⟩).COLS ≠ COLS := by
  refine ⟨rfl, ?_⟩
  intro hEq
  have hlen := congrArg List.length hEq
  simp [COLS, year_based_cols_effect] at hlen

/-! ## Claim theorem for `sklearn_mv_regression` -/

/-- C10: `sklearn_mv_regression` never returns a value, for every choice of
inputs and of library score/predict behavior: either the sampling step
fails, or the call `clf.predict(out_sample, ys[osi])` of line 224 passes
two positional data arguments to a one-argument method and raises
`TypeError` before any later statement (and even the later line 225 would
look up the never-inserted key `''`). -/
theorem sklearn_mv_regression_always_fails
    (scoreImpl : List (ℕ × Row) → List ℚ → ℚ) (predictImpl : PyArg → List ℚ)
    (xs : DataFrame) (ys : ℕ → ℚ) (isi : List ℕ) :
    ∃ e, sklearn_mv_regression scoreImpl predictImpl xs ys isi =
      Except.error e := by
  unfold sklearn_mv_regression
  cases h : create_in_out_samples xs isi with
  | error e => exact ⟨e, rfl⟩
  | ok res =>
      obtain ⟨a, b, c, d⟩ := res
      exact ⟨PyErr.typeError, rfl⟩

/-- C10 witness: a concrete complete one-row table; the run fails. -/
theorem sklearn_mv_regression_always_fails_witness :
    ∃ e, sklearn_mv_regression (fun _ _ => 0) (fun _ => [])
      ⟨1, [(0, [some 1])]⟩ (fun _ => 0) [0] = Except.error e :=
  sklearn_mv_regression_always_fails (fun _ _ => 0) (fun _ => [])
    ⟨1, [(0, [some 1])]⟩ (fun _ => 0) [0]
